import Mathlib

/-!
Verification development for the multilingual-mandi repository.

The Python sources are shallowly embedded:
- `src/translation_service.py` — `TranslationService.translate` becomes a pure
  function from a gateway, a cache and the request to a result, the new cache
  and the number of gateway invocations; Python exceptions raised by the
  gateway are modelled by `Except.error` results, and the fact that `translate`
  is a total Lean function models the `try/except` that keeps failures from
  propagating to the caller.
- `src/crop_rate.py` — `CropRate.__post_init__` validation becomes an
  `Except`-valued constructor (raising `ValueError` is modelled by
  `Except.error`).
- `src/market_service.py` — the module defines its own `CropRate` dataclass
  (without validation) and `MarketRateService`.  Prices are modelled as exact
  rationals; Python `round(x, 2)` is modelled by round-half-to-even on ℚ;
  `random.uniform` draws are explicit parameters; `datetime.now()` is an
  explicit integer-timestamp parameter.  Python object identity (the records
  held by the service dict are mutated in place) is modelled by a heap: the
  service maps crop keys to heap addresses, and `dict.copy()` copies only the
  key→address table.
- `src/app.py` — the opening-price suggestion of `render_negotiation_page`
  becomes `suggestOpeningPrice`.

String operations are embedded through the underlying character lists
(`String.data`), which matches Python's per-character semantics for the ASCII
inputs involved and keeps every definition evaluable.
-/

namespace Mandi

/-! ## Translation service (src/translation_service.py) -/

/-- A translation gateway: `(text, source_lang, target_lang)` to either a
translation or a failure (`GeminiClient.translate_text`, which may raise). -/
abbrev Gateway := String → String → String → Except String String

/-- The session translation cache, `st.session_state.translation_cache`,
as an association list from cache key to cached translation. -/
abbrev TransCache := List (String × String)

/-- Python truth test `not text or not text.strip()` from
`TranslationService.translate`: the text is empty or all-whitespace. -/
def isBlank (text : String) : Bool := text.data.all (fun c => c.isWhitespace)

/-- Python `str.lower()` (per character; the language names passed through it
in this code are ASCII). -/
def strLower (s : String) : String := String.mk (s.data.map Char.toLower)

/-- `self.supported_languages` from `TranslationService.__init__`. -/
def supported_languages : List String := ["marathi", "hindi", "english"]

/-- `TranslationService.detect_language`: english when the text is non-empty
and `any(ord(char) < 128 for char in text if char.isalpha())`, else marathi. -/
def detect_language (text : String) : String :=
  if (!text.data.isEmpty) && text.data.any (fun c => c.isAlpha && decide (c.toNat < 128))
  then "english" else "marathi"

/-- The cache key `f"{text}_{target_language}"` built in
`TranslationService.translate` after the target language is lowercased. -/
def cacheKey (text tl : String) : String := text ++ "_" ++ tl

/-- `TranslationService.translate`, embedded.  Returns the translated (or
fallen-back) text, the cache after the call, and how many gateway invocations
the call performed (0 or 1).  `gw = none` models `self.gemini_client is None`;
an `Except.error` result of the gateway models an exception caught by the
`except` block (which returns the original text and caches nothing). -/
def translate (gw : Option Gateway) (cache : TransCache) (text target_language : String) :
    String × TransCache × Nat :=
  if isBlank text then (text, cache, 0)
  else if strLower target_language ∉ supported_languages then (text, cache, 0)
  else
    match cache.lookup (cacheKey text (strLower target_language)) with
    | some v => (v, cache, 0)
    | none =>
      match gw with
      | none => (text, cache, 0)
      | some g =>
        if detect_language text = strLower target_language then (text, cache, 0)
        else
          match g text (detect_language text) (strLower target_language) with
          | Except.ok tr => (tr, (cacheKey text (strLower target_language), tr) :: cache, 1)
          | Except.error _ => (text, cache, 1)

/-- A run of successive `translate` calls against one session cache, collecting
the returned texts and threading the cache through (the app calling
`translation_service.translate` repeatedly during a session). -/
def runTranslate (gw : Option Gateway) : TransCache → List (String × String) → List String × TransCache
  | cache, [] => ([], cache)
  | cache, (t, l) :: rest =>
    ((translate gw cache t l).1 :: (runTranslate gw (translate gw cache t l).2.1 rest).1,
     (runTranslate gw (translate gw cache t l).2.1 rest).2)

example : translate none [] "hello" "hindi" = ("hello", [], 0) := by decide

example : detect_language "hello" = "english" := by decide

example : detect_language "नमस्ते" = "marathi" := by decide

/-! ### Branch lemmas for `translate` -/

theorem translate_blank (gw : Option Gateway) (cache : TransCache) (text tgt : String)
    (h : isBlank text = true) : translate gw cache text tgt = (text, cache, 0) := by
  simp [translate, h]

theorem translate_unsupported (gw : Option Gateway) (cache : TransCache) (text tgt : String)
    (h1 : isBlank text = false) (h2 : strLower tgt ∉ supported_languages) :
    translate gw cache text tgt = (text, cache, 0) := by
  simp [translate, h1, h2]

theorem translate_hit (gw : Option Gateway) (cache : TransCache) (text tgt v : String)
    (h1 : isBlank text = false) (h2 : strLower tgt ∈ supported_languages)
    (h3 : cache.lookup (cacheKey text (strLower tgt)) = some v) :
    translate gw cache text tgt = (v, cache, 0) := by
  simp [translate, h1, h2, h3]

theorem translate_miss_no_gateway (cache : TransCache) (text tgt : String)
    (h1 : isBlank text = false) (h2 : strLower tgt ∈ supported_languages)
    (h3 : cache.lookup (cacheKey text (strLower tgt)) = none) :
    translate none cache text tgt = (text, cache, 0) := by
  simp [translate, h1, h2, h3]

theorem translate_skip_same_language (g : Gateway) (cache : TransCache) (text tgt : String)
    (h1 : isBlank text = false) (h2 : strLower tgt ∈ supported_languages)
    (h3 : cache.lookup (cacheKey text (strLower tgt)) = none)
    (h4 : detect_language text = strLower tgt) :
    translate (some g) cache text tgt = (text, cache, 0) := by
  simp [translate, h1, h2, h3, h4]

theorem translate_gateway_ok (g : Gateway) (cache : TransCache) (text tgt tr : String)
    (h1 : isBlank text = false) (h2 : strLower tgt ∈ supported_languages)
    (h3 : cache.lookup (cacheKey text (strLower tgt)) = none)
    (h4 : detect_language text ≠ strLower tgt)
    (h5 : g text (detect_language text) (strLower tgt) = Except.ok tr) :
    translate (some g) cache text tgt = (tr, (cacheKey text (strLower tgt), tr) :: cache, 1) := by
  simp [translate, h1, h2, h3, h4, h5]

theorem translate_gateway_error (g : Gateway) (cache : TransCache) (text tgt m : String)
    (h1 : isBlank text = false) (h2 : strLower tgt ∈ supported_languages)
    (h3 : cache.lookup (cacheKey text (strLower tgt)) = none)
    (h4 : detect_language text ≠ strLower tgt)
    (h5 : g text (detect_language text) (strLower tgt) = Except.error m) :
    translate (some g) cache text tgt = (text, cache, 1) := by
  simp [translate, h1, h2, h3, h4, h5]

/-- On a cache miss, a missing or always-failing gateway leaves the result at
the original text and the cache untouched. -/
theorem translate_degraded_step (gw : Option Gateway)
    (hdeg : gw = none ∨ ∃ g, gw = some g ∧ ∀ a b c, ∃ m, g a b c = Except.error m)
    (cache : TransCache) (text tgt : String)
    (hmiss : cache.lookup (cacheKey text (strLower tgt)) = none) :
    (translate gw cache text tgt).1 = text ∧ (translate gw cache text tgt).2.1 = cache := by
  by_cases h1 : isBlank text = true
  · rw [translate_blank gw cache text tgt h1]; exact ⟨rfl, rfl⟩
  · have h1' : isBlank text = false := by simpa using h1
    by_cases h2 : strLower tgt ∈ supported_languages
    · rcases hdeg with rfl | ⟨g, rfl, hfail⟩
      · rw [translate_miss_no_gateway cache text tgt h1' h2 hmiss]; exact ⟨rfl, rfl⟩
      · by_cases h4 : detect_language text = strLower tgt
        · rw [translate_skip_same_language g cache text tgt h1' h2 hmiss h4]; exact ⟨rfl, rfl⟩
        · obtain ⟨m, hm⟩ := hfail text (detect_language text) (strLower tgt)
          rw [translate_gateway_error g cache text tgt m h1' h2 hmiss h4 hm]; exact ⟨rfl, rfl⟩
    · rw [translate_unsupported gw cache text tgt h1' h2]; exact ⟨rfl, rfl⟩

/-- C1.  For every text and supported target language, when no translation
gateway is configured or every gateway call fails, `translate` returns the
original text unchanged and leaves the cache unchanged: on any cache miss a
single call falls back to the original text without touching the cache, and a
whole session run started from the empty session cache returns every submitted
text unchanged and ends with the cache still empty (so nothing is ever
stored).  `translate` being a total function (the `except` block of the Python
code) models that no gateway failure propagates to the caller. -/
theorem translate_degraded_fallback (gw : Option Gateway)
    (hdeg : gw = none ∨ ∃ g, gw = some g ∧ ∀ a b c, ∃ m, g a b c = Except.error m) :
    (∀ cache text tgt, cache.lookup (cacheKey text (strLower tgt)) = none →
      (translate gw cache text tgt).1 = text ∧ (translate gw cache text tgt).2.1 = cache)
    ∧ ∀ reqs, runTranslate gw [] reqs = (reqs.map Prod.fst, []) := by
  refine ⟨translate_degraded_step gw hdeg, ?_⟩
  intro reqs
  induction reqs with
  | nil => rfl
  | cons hd rest ih =>
    obtain ⟨t, l⟩ := hd
    obtain ⟨hr, hc⟩ := translate_degraded_step gw hdeg [] t l rfl
    simp [runTranslate, hr, hc, ih]

/-- Witness for C1 at a concrete degraded session. -/
theorem translate_degraded_fallback_witness :
    runTranslate none [] [("hello", "hindi")] = (["hello"], []) :=
  (translate_degraded_fallback none (Or.inl rfl)).2 [("hello", "hindi")]

/-- C2.  For every non-blank text and supported target language with an
existing cache entry for the key, `translate` returns the cached value, leaves
the cache unchanged and performs no gateway invocation. -/
theorem translate_cache_hit_returns_cached (gw : Option Gateway) (cache : TransCache)
    (text tgt v : String)
    (hblank : isBlank text = false) (hsup : strLower tgt ∈ supported_languages)
    (hhit : cache.lookup (cacheKey text (strLower tgt)) = some v) :
    translate gw cache text tgt = (v, cache, 0) :=
  translate_hit gw cache text tgt v hblank hsup hhit

/-- Witness for C2 at a concrete pre-populated cache. -/
theorem translate_cache_hit_returns_cached_witness :
    translate none [("ab_hindi", "xy")] "ab" "Hindi" = ("xy", [("ab_hindi", "xy")], 0) :=
  translate_cache_hit_returns_cached none [("ab_hindi", "xy")] "ab" "Hindi" "xy"
    (by decide) (by decide) (by decide)

/-- A gateway whose every call fails, as when the external translation
service is unreachable. -/
def gwFail : Gateway := fun _ _ _ => Except.error "service unavailable"

/-- Counterexample to C3 as stated.  With a failing gateway, translating
"hello" into hindi twice in a row invokes the gateway on both calls (the
failure is not cached, so the second call misses the cache and calls the
gateway again): the two calls together perform 2 gateway invocations, not at
most 1. -/
theorem translate_twice_two_gateway_calls :
    ¬ ((translate (some gwFail) [] "hello" "hindi").2.2
        + (translate (some gwFail)
            (translate (some gwFail) [] "hello" "hindi").2.1 "hello" "hindi").2.2 ≤ 1) := by
  decide

/-- C3 amended.  Calling `translate` twice in direct succession yields the
same result both times; the gateway is invoked at most once across the two
calls unless the first call's gateway invocation fails (first call invoked the
gateway, count 1, yet cached nothing), in which case both calls invoke the
gateway (2 invocations total). -/
theorem translate_idempotent_pair (gw : Option Gateway) (cache : TransCache) (text tgt : String) :
    (translate gw cache text tgt).1
      = (translate gw (translate gw cache text tgt).2.1 text tgt).1
    ∧ (¬ ((translate gw cache text tgt).2.2 = 1 ∧ (translate gw cache text tgt).2.1 = cache) →
        (translate gw cache text tgt).2.2
          + (translate gw (translate gw cache text tgt).2.1 text tgt).2.2 ≤ 1)
    ∧ (((translate gw cache text tgt).2.2 = 1 ∧ (translate gw cache text tgt).2.1 = cache) →
        (translate gw cache text tgt).2.2
          + (translate gw (translate gw cache text tgt).2.1 text tgt).2.2 = 2) := by
  by_cases h1 : isBlank text = true
  · rw [translate_blank gw cache text tgt h1]
    simp [translate_blank gw cache text tgt h1]
  · have h1' : isBlank text = false := by simpa using h1
    by_cases h2 : strLower tgt ∈ supported_languages
    · cases hlook : cache.lookup (cacheKey text (strLower tgt)) with
      | some v =>
        rw [translate_hit gw cache text tgt v h1' h2 hlook]
        simp [translate_hit gw cache text tgt v h1' h2 hlook]
      | none =>
        cases gw with
        | none =>
          rw [translate_miss_no_gateway cache text tgt h1' h2 hlook]
          simp [translate_miss_no_gateway cache text tgt h1' h2 hlook]
        | some g =>
          by_cases h4 : detect_language text = strLower tgt
          · rw [translate_skip_same_language g cache text tgt h1' h2 hlook h4]
            simp [translate_skip_same_language g cache text tgt h1' h2 hlook h4]
          · cases hg : g text (detect_language text) (strLower tgt) with
            | ok tr =>
              rw [translate_gateway_ok g cache text tgt tr h1' h2 hlook h4 hg]
              have hhit2 : ((cacheKey text (strLower tgt), tr) :: cache).lookup
                  (cacheKey text (strLower tgt)) = some tr := by
                simp [List.lookup]
              rw [translate_hit g ((cacheKey text (strLower tgt), tr) :: cache) text tgt tr
                h1' h2 hhit2]
              refine ⟨rfl, fun _ => by norm_num, fun hcontra => ?_⟩
              exact absurd hcontra.2 (List.cons_ne_self _ _)
            | error m =>
              rw [translate_gateway_error g cache text tgt m h1' h2 hlook h4 hg]
              rw [translate_gateway_error g cache text tgt m h1' h2 hlook h4 hg]
              exact ⟨rfl, fun hc => absurd ⟨rfl, rfl⟩ hc, fun _ => rfl⟩
    · rw [translate_unsupported gw cache text tgt h1' h2]
      simp [translate_unsupported gw cache text tgt h1' h2]

/-- Witness for C3's amended theorem at a concrete input, discharging the
non-failure hypothesis. -/
theorem translate_idempotent_pair_witness :
    (translate none [] "hello" "hindi").2.2
      + (translate none (translate none [] "hello" "hindi").2.1 "hello" "hindi").2.2 ≤ 1 :=
  (translate_idempotent_pair none [] "hello" "hindi").2.1 (by decide)

/-! ## Crop rate records (src/crop_rate.py, src/market_service.py) -/

/-- The fields shared by both `CropRate` dataclasses of the repository
(`src/crop_rate.py` and `src/market_service.py` each define one). -/
structure CropRec where
  crop_name : String
  current_price : ℚ
  unit : String
  market_location : String
  last_updated : ℤ
  trend : String
  historical_data : Option (List ℚ)
  deriving DecidableEq, Repr

/-- The trend values accepted by `CropRate.__post_init__` in `src/crop_rate.py`. -/
def validTrends : List String := ["up", "down", "stable"]

/-- Construction of `crop_rate.CropRate`: `__post_init__` raises `ValueError`
(modelled as `Except.error`) for a negative price, an unrecognized trend, or a
name, unit or market location that is empty after stripping, in that order. -/
def mkCropRate (crop_name : String) (current_price : ℚ) (unit market_location : String)
    (last_updated : ℤ) (trend : String) (historical_data : Option (List ℚ)) :
    Except String CropRec :=
  if current_price < 0 then Except.error "Current price cannot be negative"
  else if trend ∉ validTrends then Except.error "Trend must be up, down, or stable"
  else if isBlank crop_name then Except.error "Crop name cannot be empty"
  else if isBlank unit then Except.error "Unit cannot be empty"
  else if isBlank market_location then Except.error "Market location cannot be empty"
  else Except.ok ⟨crop_name, current_price, unit, market_location, last_updated, trend,
    historical_data⟩

/-- Construction of `market_service.CropRate` (the dataclass the rate store
instantiates): its `__post_init__` performs no validation at all; it only
fills a missing historical sequence with 7 pseudo-random values
`base_price + random.uniform(-200, 200)`, modelled by the draws `rand`.
It never raises, hence always returns `Except.ok`. -/
def mkCropRateMS (rand : Nat → ℚ) (crop_name : String) (current_price : ℚ)
    (unit market_location : String) (last_updated : ℤ) (trend : String)
    (historical_data : Option (List ℚ)) : Except String CropRec :=
  Except.ok ⟨crop_name, current_price, unit, market_location, last_updated, trend,
    some (match historical_data with
      | some h => h
      | none => (List.range 7).map (fun i => current_price + rand i))⟩

/-! ## Market rate service (src/market_service.py) -/

/-- Python `round(x, 2)` on exact rationals: round to the nearest multiple of
1/100, ties to the even multiple (banker's rounding). -/
def round2 (q : ℚ) : ℚ :=
  if q * 100 - ⌊q * 100⌋ < 1/2 then (⌊q * 100⌋ : ℚ) / 100
  else if (1:ℚ)/2 < q * 100 - ⌊q * 100⌋ then ((⌊q * 100⌋ + 1 : ℤ) : ℚ) / 100
  else (if ⌊q * 100⌋ % 2 = 0 then (⌊q * 100⌋ : ℚ) else ((⌊q * 100⌋ + 1 : ℤ) : ℚ)) / 100

/-- The trend update of `MarketRateService.update_mock_data`: compare the new
(unrounded) price with the old price. -/
def tickTrend (old newp : ℚ) : String :=
  if old < newp then "up" else if newp < old then "down" else "stable"

/-- The history update of `MarketRateService.update_mock_data`: when the
history is non-empty (`if crop.historical_data:`), append the new unrounded
price and keep only the last 30 entries. -/
def tickHist (h : List ℚ) (p : ℚ) : List ℚ :=
  if h = [] then h
  else if (h ++ [p]).length > 30 then (h ++ [p]).drop ((h ++ [p]).length - 30) else h ++ [p]

/-- One record's update in `MarketRateService.update_mock_data` given the
draw `v = random.uniform(-0.05, 0.05)` and the current time `now`: the trend
compares the unrounded new price with the old price, the stored price is the
new price rounded to 2 decimals, the timestamp is refreshed, and the unrounded
new price is appended to a non-empty history (then capped at 30). -/
def tickRecord (c : CropRec) (v : ℚ) (now : ℤ) : CropRec :=
  { c with
    trend := tickTrend c.current_price (c.current_price * (1 + v)),
    current_price := round2 (c.current_price * (1 + v)),
    last_updated := now,
    historical_data := match c.historical_data with
      | none => none
      | some h => some (tickHist h (c.current_price * (1 + v))) }

/-- The rate store with Python object identity made explicit: `mock_data` maps
crop keys to heap addresses, and the heap holds the `CropRate` objects that
`update_mock_data` mutates in place. -/
structure MarketState where
  heap : List CropRec
  mock_data : List (String × Nat)
  deriving DecidableEq, Repr

/-- A default record, only used to keep heap reads total (never reached for
well-formed states whose addresses are in range). -/
def dfltRec : CropRec := ⟨"", 0, "", "", 0, "stable", none⟩

/-- `MarketRateService.get_current_rates`: `self.mock_data.copy()`, a shallow
dict copy — a fresh key→object-reference table over the same records. -/
def get_current_rates (s : MarketState) : List (String × Nat) := s.mock_data

/-- The loop of `MarketRateService.update_mock_data` over the store's entries,
mutating each referenced record in place; the i-th entry consumes the i-th
random draw. -/
def updateEntries (rand : Nat → ℚ) (now : ℤ) :
    List (String × Nat) → Nat → List CropRec → List CropRec
  | [], _, heap => heap
  | (_, a) :: rest, i, heap =>
    updateEntries rand now rest (i + 1)
      (heap.set a (tickRecord (heap.getD a dfltRec) (rand i) now))

/-- `MarketRateService.update_mock_data`: tick every record in the store. -/
def update_mock_data (s : MarketState) (rand : Nat → ℚ) (now : ℤ) : MarketState :=
  { s with heap := updateEntries rand now s.mock_data 0 s.heap }

/-- What a caller holding a previously returned mapping observes for key `k`:
follow the mapping's object reference into the current heap. -/
def viewRate (snap : List (String × Nat)) (heap : List CropRec) (k : String) : Option CropRec :=
  (snap.lookup k).bind (fun a => heap.get? a)

/-- Key normalization of `MarketRateService.get_rate_by_crop`:
`crop_name.lower().replace(" ", "")`. -/
def normalize_crop (s : String) : String :=
  String.mk ((s.data.map Char.toLower).filter (fun c => c ≠ ' '))

/-- `MarketRateService.get_rate_by_crop` over the store's records (a read-only
query, so the dict is modelled directly as key→record here). -/
def get_rate_by_crop (store : List (String × CropRec)) (name : String) : Option CropRec :=
  store.lookup (normalize_crop name)

/-- Python's `h[-days:]` slice for a natural `days`: for `days = 0` this is
`h[0:]`, the whole list; otherwise the last `days` entries. -/
def pySliceLast (h : List ℚ) (days : Nat) : List ℚ :=
  if days = 0 then h else h.drop (h.length - days)

/-- `MarketRateService.get_historical_trends`: look the crop up, and if it has
a non-empty history return `historical_data[-days:]` when at least `days`
entries exist, else the whole history; `[]` for unknown crops or no history. -/
def get_historical_trends (store : List (String × CropRec)) (name : String) (days : Nat) :
    List ℚ :=
  match get_rate_by_crop store name with
  | none => []
  | some c =>
    match c.historical_data with
    | none => []
    | some h => if h = [] then [] else if days ≤ h.length then pySliceLast h days else h

/-- Modelled from the spec for comparison in C8: `getHistory(id, days)` returns
the last `days` entries of historical data, or fewer if not enough exist, or
empty if none recorded / unknown id. -/
def specGetHistory (store : List (String × CropRec)) (name : String) (days : Nat) : List ℚ :=
  match get_rate_by_crop store name with
  | none => []
  | some c =>
    match c.historical_data with
    | none => []
    | some h => h.drop (h.length - days)

/-! ## Opening price suggestion (src/app.py, render_negotiation_page) -/

/-- The AI price suggestion of `render_negotiation_page`: the buyer role takes
5% off the current market rate, the seller role adds 5%. -/
def suggestOpeningPrice (basePrice : ℚ) (role : String) : ℚ :=
  if role = "buyer" then basePrice * (95/100) else basePrice * (105/100)

/-! ## C4: construction validation -/

/-- Counterexample to C4 as stated.  The records the rate store creates are
instances of the `CropRate` dataclass defined inside `src/market_service.py`,
whose `__post_init__` performs no validation: constructing one with the
negative price -5 succeeds and yields a record holding -5, instead of failing
with a validation error. -/
theorem marketStore_negative_price_construction_succeeds :
    mkCropRateMS (fun _ => 0) "Wheat" (-5) "quintal" "Pune Mandi" 0 "up" (some [1])
      = Except.ok ⟨"Wheat", -5, "quintal", "Pune Mandi", 0, "up", some [1]⟩ := rfl

/-- C4 amended.  The validating constructor is the `CropRate` of
`src/crop_rate.py`: construction succeeds exactly when the price is zero or
positive, the trend is recognized, and name, unit and market location are
non-empty after trimming; otherwise it fails with a validation error surfaced
to the caller.  The separate `CropRate` dataclass in `src/market_service.py`
— the one the rate store instantiates — performs no such validation. -/
theorem mkCropRate_validates (crop_name : String) (current_price : ℚ)
    (unit market_location : String) (last_updated : ℤ) (trend : String)
    (historical_data : Option (List ℚ)) :
    (∃ r, mkCropRate crop_name current_price unit market_location last_updated trend
        historical_data = Except.ok r)
      ↔ (0 ≤ current_price ∧ trend ∈ validTrends ∧ isBlank crop_name = false
          ∧ isBlank unit = false ∧ isBlank market_location = false) := by
  constructor
  · rintro ⟨r, hr⟩
    unfold mkCropRate at hr
    split_ifs at hr with hp ht hn hu hl
    exact ⟨not_lt.mp hp, ht, eq_false_of_ne_true hn, eq_false_of_ne_true hu,
      eq_false_of_ne_true hl⟩
  · rintro ⟨hp, ht, hn, hu, hl⟩
    refine ⟨⟨crop_name, current_price, unit, market_location, last_updated, trend,
      historical_data⟩, ?_⟩
    unfold mkCropRate
    rw [if_neg (not_lt.mpr hp), if_neg (not_not_intro ht), if_neg (by simp [hn]),
      if_neg (by simp [hu]), if_neg (by simp [hl])]

/-- Witness for C4's amended theorem: a valid record with positive price is
constructed successfully. -/
theorem mkCropRate_validates_witness :
    ∃ r, mkCropRate "Wheat" 5 "quintal" "Pune Mandi" 0 "up" none = Except.ok r :=
  (mkCropRate_validates "Wheat" 5 "quintal" "Pune Mandi" 0 "up" none).mpr
    ⟨by norm_num, by decide, by decide, by decide, by decide⟩

/-! ## C5: shallow snapshot of the rate store -/

/-- The seeded wheat record used for concrete market scenarios. -/
def wheatRec : CropRec := ⟨"Wheat", 100, "quintal", "Pune Mandi", 0, "up", some [100]⟩

/-- A one-crop store: the heap holds the wheat record at address 0 and the
store's dict maps "wheat" to that object. -/
def oneCropState : MarketState := ⟨[wheatRec], [("wheat", 0)]⟩

/-- Counterexample to C5 as stated.  `get_current_rates` only copies the dict
(`self.mock_data.copy()` is a shallow copy), so the returned mapping holds
references to the very records `update_mock_data` mutates in place: after a
tick with draw +1%, the price observed through the previously returned mapping
has changed from 100 to 101 — the mutation IS observable through the old
snapshot. -/
theorem snapshot_observes_tick_mutation :
    (viewRate (get_current_rates oneCropState)
        ((update_mock_data oneCropState (fun _ => 1/100) 7).heap) "wheat").map
        CropRec.current_price = some 101
    ∧ (viewRate (get_current_rates oneCropState) oneCropState.heap "wheat").map
        CropRec.current_price = some 100 := by
  constructor
  · show (viewRate [("wheat", 0)] [tickRecord wheatRec (1/100) 7] "wheat").map
      CropRec.current_price = some 101
    have hv : viewRate [("wheat", 0)] [tickRecord wheatRec (1/100) 7] "wheat"
        = some (tickRecord wheatRec (1/100) 7) := rfl
    rw [hv]
    norm_num [tickRecord, wheatRec, round2]
  · rfl

/-- C5 amended.  `get_current_rates` returns a shallow copy: the key→reference
table is a fresh value (and `update_mock_data` does not change it), but the
records are shared by reference, so after a tick the previously returned
mapping observes exactly the same mutated records as a fresh snapshot taken
after the tick, for every key. -/
theorem get_current_rates_shallow_copy (s : MarketState) (rand : Nat → ℚ) (now : ℤ)
    (k : String) :
    viewRate (get_current_rates s) (update_mock_data s rand now).heap k
      = viewRate (get_current_rates (update_mock_data s rand now))
          (update_mock_data s rand now).heap k
    ∧ (update_mock_data s rand now).mock_data = s.mock_data :=
  ⟨rfl, rfl⟩

/-! ## C6: price perturbation bounds and trend recomputation -/

theorem tickTrend_up_iff (old newp : ℚ) : tickTrend old newp = "up" ↔ old < newp := by
  unfold tickTrend
  split_ifs with h h2
  · simp [h]
  · constructor
    · intro hc; exact absurd hc (by decide)
    · intro hc; exact absurd hc h
  · constructor
    · intro hc; exact absurd hc (by decide)
    · intro hc; exact absurd hc h

theorem tickTrend_down_iff (old newp : ℚ) : tickTrend old newp = "down" ↔ newp < old := by
  unfold tickTrend
  split_ifs with h h2
  · constructor
    · intro hc; exact absurd hc (by decide)
    · intro hc; exact absurd hc (not_lt.mpr h.le)
  · simp [h2]
  · constructor
    · intro hc; exact absurd hc (by decide)
    · intro hc; exact absurd hc h2

theorem tickTrend_stable_iff (old newp : ℚ) : tickTrend old newp = "stable" ↔ newp = old := by
  unfold tickTrend
  split_ifs with h h2
  · constructor
    · intro hc; exact absurd hc (by decide)
    · intro hc; rw [hc] at h; exact absurd h (lt_irrefl old)
  · constructor
    · intro hc; exact absurd hc (by decide)
    · intro hc; rw [hc] at h2; exact absurd h2 (lt_irrefl old)
  · simp [le_antisymm (not_lt.mp h2) (not_lt.mp h)]

/-- C6 amended.  For a draw `v ∈ [-0.05, 0.05]` and nonnegative price `P`, the
unrounded new price `P·(1+v)` lies in `[0.95·P, 1.05·P]`; the stored price is
that value rounded to 2 decimals (and may therefore leave the interval — see
the counterexample); the trend is "up" iff the unrounded new price is strictly
above `P`, "down" iff strictly below, "stable" iff equal; and the timestamp is
refreshed to `now`. -/
theorem tick_price_bounds_and_trend (c : CropRec) (v : ℚ) (now : ℤ)
    (hlo : -(1/20) ≤ v) (hhi : v ≤ 1/20) (hp : 0 ≤ c.current_price) :
    (95/100) * c.current_price ≤ c.current_price * (1 + v)
    ∧ c.current_price * (1 + v) ≤ (105/100) * c.current_price
    ∧ (tickRecord c v now).current_price = round2 (c.current_price * (1 + v))
    ∧ ((tickRecord c v now).trend = "up" ↔ c.current_price < c.current_price * (1 + v))
    ∧ ((tickRecord c v now).trend = "down" ↔ c.current_price * (1 + v) < c.current_price)
    ∧ ((tickRecord c v now).trend = "stable" ↔ c.current_price * (1 + v) = c.current_price)
    ∧ (tickRecord c v now).last_updated = now := by
  refine ⟨by nlinarith, by nlinarith, rfl, ?_, ?_, ?_, rfl⟩
  · exact tickTrend_up_iff c.current_price (c.current_price * (1 + v))
  · exact tickTrend_down_iff c.current_price (c.current_price * (1 + v))
  · exact tickTrend_stable_iff c.current_price (c.current_price * (1 + v))

/-- Witness for C6's amended theorem at the wheat record with draw +1%. -/
theorem tick_price_bounds_and_trend_witness :
    (95/100 : ℚ) * wheatRec.current_price ≤ wheatRec.current_price * (1 + 1/100)
    ∧ wheatRec.current_price * (1 + 1/100) ≤ (105/100) * wheatRec.current_price
    ∧ (tickRecord wheatRec (1/100) 7).current_price
        = round2 (wheatRec.current_price * (1 + 1/100))
    ∧ ((tickRecord wheatRec (1/100) 7).trend = "up"
        ↔ wheatRec.current_price < wheatRec.current_price * (1 + 1/100))
    ∧ ((tickRecord wheatRec (1/100) 7).trend = "down"
        ↔ wheatRec.current_price * (1 + 1/100) < wheatRec.current_price)
    ∧ ((tickRecord wheatRec (1/100) 7).trend = "stable"
        ↔ wheatRec.current_price * (1 + 1/100) = wheatRec.current_price)
    ∧ (tickRecord wheatRec (1/100) 7).last_updated = 7 :=
  tick_price_bounds_and_trend wheatRec (1/100) 7 (by norm_num) (by norm_num)
    (by norm_num [wheatRec])

/-- A record with the small price 0.12 (reachable in principle by repeated
downward ticks; the claim quantifies over every record and price). -/
def onionRec : CropRec := ⟨"Onion", 12/100, "quintal", "Nashik Mandi", 0, "stable",
  some [12/100]⟩

/-- Counterexample to C6 as stated.  With price P = 0.12 and draw
v = -0.049 ∈ [-0.05, 0.05], the unrounded new price is 0.11412 ∈ [0.95·P,
1.05·P] = [0.114, 0.126], but the stored price is round(0.11412, 2) = 0.11,
which lies strictly below 0.95·P: the record's price afterwards is NOT always
within [0.95·P, 1.05·P]. -/
theorem tick_rounded_price_below_bound :
    (tickRecord onionRec (-(49/1000)) 0).current_price < (95/100) * onionRec.current_price
    ∧ (-(1/20) : ℚ) ≤ -(49/1000) ∧ (-(49/1000) : ℚ) ≤ 1/20 := by
  refine ⟨?_, by norm_num, by norm_num⟩
  norm_num [tickRecord, onionRec, round2]

/-! ## C7: history append and 30-entry cap -/

theorem tickHist_length_le (h : List ℚ) (p : ℚ) (hl : h.length ≤ 30) :
    (tickHist h p).length ≤ 30 := by
  unfold tickHist
  split_ifs with he hlen
  · exact hl
  · rw [List.length_drop]
    omega
  · simp only [List.length_append, List.length_cons, List.length_nil] at hlen ⊢
    omega

/-- C7.  When a record's history is non-empty (as every store record's is,
seeded with 7 entries), a tick replaces it with the append of the new price
truncated to the most recent 30 entries; the length bound 30 is preserved by
one tick and by any sequence of ticks, and `update_mock_data` applies exactly
this history update to each record. -/
theorem tick_history_append_cap (h : List ℚ) (p : ℚ) (ps : List ℚ) (c : CropRec) (v : ℚ)
    (now : ℤ) :
    (h ≠ [] → tickHist h p = (h ++ [p]).drop ((h ++ [p]).length - 30))
    ∧ (h.length ≤ 30 → (tickHist h p).length ≤ 30)
    ∧ (h.length ≤ 30 → (ps.foldl tickHist h).length ≤ 30)
    ∧ (c.historical_data = some h →
        (tickRecord c v now).historical_data = some (tickHist h (c.current_price * (1 + v)))) := by
  refine ⟨?_, tickHist_length_le h p, ?_, ?_⟩
  · intro hne
    unfold tickHist
    rw [if_neg hne]
    split_ifs with hlen
    · rfl
    · rw [Nat.sub_eq_zero_of_le (not_lt.mp hlen), List.drop_zero]
  · intro hl
    induction ps generalizing h with
    | nil => exact hl
    | cons q qs ih => exact ih (tickHist h q) (tickHist_length_le h q hl)
  · intro hc
    simp [tickRecord, hc]

/-- Witness for C7 at a concrete one-entry history and the wheat record. -/
theorem tick_history_append_cap_witness :
    tickHist [100] 2 = (([100] : List ℚ) ++ [2]).drop ((([100] : List ℚ) ++ [2]).length - 30)
    ∧ (tickRecord wheatRec 0 0).historical_data
        = some (tickHist [100] (wheatRec.current_price * (1 + 0))) :=
  ⟨(tick_history_append_cap [100] 2 [] wheatRec 0 0).1 (by simp),
   (tick_history_append_cap [100] 2 [] wheatRec 0 0).2.2.2 rfl⟩

/-! ## C8: getHistory and the last `days` entries -/

/-- A store with the wheat crop carrying history [1, 2, 3], for concrete
history queries. -/
def histStore : List (String × CropRec) :=
  [("wheat", ⟨"Wheat", 100, "quintal", "Pune Mandi", 0, "up", some [1, 2, 3]⟩)]

/-- Counterexample to C8 as stated.  For `days = 0` the claim demands the last
0 entries, the empty sequence; but the code returns `historical_data[-0:]`,
which in Python is the whole list: querying 0 days of the history [1, 2, 3]
returns all three entries. -/
theorem get_historical_trends_days_zero :
    get_historical_trends histStore "wheat" 0 = [1, 2, 3]
    ∧ ([1, 2, 3] : List ℚ) ≠ [] := by
  constructor
  · have hn : normalize_crop "wheat" = "wheat" := by decide
    simp [get_historical_trends, get_rate_by_crop, histStore, hn, pySliceLast, List.lookup]
  · simp

/-- C8 amended.  For every store, crop name and positive `days`,
`get_historical_trends` returns exactly the last `days` entries of the crop's
history — all of it if fewer than `days` exist, and the empty sequence for an
unknown id or an absent/empty history — matching the specified behaviour
(`specGetHistory`).  For `days = 0` the code instead returns the whole
history (see the counterexample). -/
theorem get_historical_trends_last_days (store : List (String × CropRec)) (name : String)
    (days : Nat) (hd : 1 ≤ days) :
    get_historical_trends store name days = specGetHistory store name days := by
  unfold get_historical_trends specGetHistory
  cases hr : get_rate_by_crop store name with
  | none => simp
  | some c =>
    cases hh : c.historical_data with
    | none => simp [hh]
    | some h =>
      simp only [hh]
      by_cases he : h = []
      · subst he
        simp
      · rw [if_neg he]
        split_ifs with hlen
        · unfold pySliceLast
          rw [if_neg (by omega)]
        · rw [Nat.sub_eq_zero_of_le (le_of_not_le hlen), List.drop_zero]

/-- Witness for C8's amended theorem at the concrete store and 2 days. -/
theorem get_historical_trends_last_days_witness :
    get_historical_trends histStore "wheat" 2 = specGetHistory histStore "wheat" 2 :=
  get_historical_trends_last_days histStore "wheat" 2 (by norm_num)

/-! ## C9: suggested opening price -/

/-- C9.  The suggested opening price is basePrice × 0.95 for the buyer role
and basePrice × 1.05 for the seller role — a pure arithmetic function of its
arguments (no state, no randomness in the embedding) — and in particular
1000 suggests 950 for a buyer and 1050 for a seller. -/
theorem suggestOpeningPrice_spec (b : ℚ) :
    suggestOpeningPrice b "buyer" = b * (95/100)
    ∧ suggestOpeningPrice b "seller" = b * (105/100)
    ∧ suggestOpeningPrice 1000 "buyer" = 950
    ∧ suggestOpeningPrice 1000 "seller" = 1050 := by
  have hns : ("seller" : String) ≠ "buyer" := by decide
  refine ⟨by simp [suggestOpeningPrice], ?_, by norm_num [suggestOpeningPrice],
    by norm_num [suggestOpeningPrice, hns]⟩
  unfold suggestOpeningPrice
  rw [if_neg hns]

/-! ## C10: stored price is rounded, history keeps the unrounded price -/

theorem getLast?_drop_of_lt {α : Type} (l : List α) (n : Nat) (hn : n < l.length) :
    (l.drop n).getLast? = l.getLast? := by
  induction l generalizing n with
  | nil => simp at hn
  | cons a t ih =>
    cases n with
    | zero => simp
    | succ m =>
      have hm : m < t.length := by simpa using hn
      rw [List.drop_succ_cons, ih m hm]
      cases t with
      | nil => simp at hm
      | cons b u => rw [List.getLast?_cons_cons]

theorem tickHist_getLast? (h : List ℚ) (p : ℚ) (hne : h ≠ []) :
    (tickHist h p).getLast? = some p := by
  unfold tickHist
  rw [if_neg hne]
  split_ifs with hlen
  · rw [getLast?_drop_of_lt _ _ (by omega)]
    exact List.getLast?_concat h
  · exact List.getLast?_concat h

/-- C10.  After a tick of a record with non-empty history, the stored current
price is the unrounded new price rounded to 2 decimals while the entry
appended to the history (its last entry) is the unrounded new price itself;
hence the stored price always equals the last history entry rounded to 2
decimals, and (second conjunct, at P = 100 and v = 0.00003) it can differ from
that last entry. -/
theorem tick_price_rounded_history_unrounded :
    (∀ (c : CropRec) (h : List ℚ) (v : ℚ) (now : ℤ),
      c.historical_data = some h → h ≠ [] →
      (tickRecord c v now).current_price = round2 (c.current_price * (1 + v))
      ∧ (tickRecord c v now).historical_data
          = some (tickHist h (c.current_price * (1 + v)))
      ∧ (tickHist h (c.current_price * (1 + v))).getLast? = some (c.current_price * (1 + v)))
    ∧ (tickRecord wheatRec (3/100000) 0).current_price
        ≠ (tickHist [100] (wheatRec.current_price * (1 + 3/100000))).getLast?.getD 0 := by
  constructor
  · intro c h v now hc hne
    exact ⟨rfl, by simp [tickRecord, hc], tickHist_getLast? h _ hne⟩
  · have h1 : (tickRecord wheatRec (3/100000) 0).current_price = 100 := by
      norm_num [tickRecord, wheatRec, round2]
    have h2 : (tickHist [100] (wheatRec.current_price * (1 + 3/100000))).getLast?.getD 0
        = 100 * (1 + 3/100000) := by
      rw [tickHist_getLast? [100] _ (by simp)]
      rfl
    rw [h1, h2]
    norm_num

/-- Witness for C10 at the wheat record with draw 0.00003. -/
theorem tick_price_rounded_history_unrounded_witness :
    (tickRecord wheatRec (3/100000) 0).current_price
      = round2 (wheatRec.current_price * (1 + 3/100000))
    ∧ (tickRecord wheatRec (3/100000) 0).historical_data
        = some (tickHist [100] (wheatRec.current_price * (1 + 3/100000)))
    ∧ (tickHist [100] (wheatRec.current_price * (1 + 3/100000))).getLast?
        = some (wheatRec.current_price * (1 + 3/100000)) :=
  tick_price_rounded_history_unrounded.1 wheatRec [100] (3/100000) 0 rfl (by simp)

end Mandi
